import Mathlib

/-!
Shallow embedding of the 6502dotrs emulator core (src/cpu.rs, src/memory.rs,
src/processor_status.rs, src/op_codes.rs).

Conventions of the embedding:
* Machine integers are modeled as Nat. Fixed-width Rust arithmetic that wraps
  (u8 and u16 addition and subtraction, compiled in release profile) is modeled
  with an explicit mod: x % 256 for u8 and x % 65536 for u16. Arithmetic the
  source performs in usize (no 16-bit wrap before indexing) is modeled as plain
  Nat addition.
* A Rust panic (array index out of bounds, or the explicit fetch guard) is
  modeled by Option: a handler returns none exactly when the source panics.
* The bitflags ProcessorStatus is modeled as a structure of seven Bools, one
  per defined flag bit; bits packs them into the raw byte and
  from_bits_truncate extracts exactly the seven defined bits of a byte, as
  bitflags from_bits_truncate masks the byte with the union of defined bits.
-/

/-- MAX_MEM from src/memory.rs: pub const MAX_MEM: usize = 1024 * 64. -/
def MAX_MEM : Nat := 1024 * 64

/-- Memory from src/memory.rs: a fixed array of MAX_MEM bytes, modeled as a
function from index to stored byte; indices at or beyond MAX_MEM are out of
bounds for every access. -/
structure Memory where
  data : Nat → Nat

/-- Memory.read_byte: data[address]; panics (none) when the index is out of
bounds of the MAX_MEM array. -/
def Memory.read_byte (m : Memory) (address : Nat) : Option Nat :=
  if address < MAX_MEM then some (m.data address) else none

/-- Memory.write_byte: data[address] = data; panics (none) out of bounds. -/
def Memory.write_byte (m : Memory) (address : Nat) (v : Nat) : Option Memory :=
  if address < MAX_MEM then some ⟨fun j => if j = address then v else m.data j⟩
  else none

/-- Memory.read_word: little-endian word from address and address + 1. The
address + 1 is usize arithmetic in the source, so no 16-bit wrap happens
before indexing. -/
def Memory.read_word (m : Memory) (address : Nat) : Option Nat := do
  let lo ← m.read_byte address
  let hi ← m.read_byte (address + 1)
  return lo ||| hi <<< 8

/-- Memory.write_word: low byte at address, high byte at address + 1, with the
as u8 casts of the source modeled by the masks. -/
def Memory.write_word (m : Memory) (address : Nat) (v : Nat) : Option Memory := do
  let m1 ← m.write_byte address (v &&& 255)
  m1.write_byte (address + 1) ((v >>> 8) &&& 255)

/-- Memory wellformedness: every stored cell is one byte, as the u8 array of
the source guarantees. -/
def Memory.Wf (m : Memory) : Prop := ∀ j, m.data j < 256

/-- ProcessorStatus from src/processor_status.rs: the seven defined flag bits
N (bit 7), V (bit 6), B (bit 4), D (bit 3), I (bit 2), Z (bit 1), C (bit 0). -/
structure ProcessorStatus where
  n : Bool
  v : Bool
  b : Bool
  d : Bool
  i : Bool
  z : Bool
  c : Bool
deriving DecidableEq

/-- ProcessorStatus.bits: the raw packed byte, each flag at its bit. -/
def ProcessorStatus.bits (ps : ProcessorStatus) : Nat :=
  (cond ps.n 128 0) ||| (cond ps.v 64 0) ||| (cond ps.b 16 0) |||
    (cond ps.d 8 0) ||| (cond ps.i 4 0) ||| (cond ps.z 2 0) ||| (cond ps.c 1 0)

/-- ProcessorStatus.from_bits_truncate: bitflags masks the byte with the union
of defined bits, so each defined flag takes exactly its bit of the byte and
bit 5 of the byte is dropped, it matches no defined flag. -/
def ProcessorStatus.from_bits_truncate (bits : Nat) : ProcessorStatus :=
  ⟨bits.testBit 7, bits.testBit 6, bits.testBit 4, bits.testBit 3,
    bits.testBit 2, bits.testBit 1, bits.testBit 0⟩

/-- Cpu from src/cpu.rs: pc and sp are u16, a, x, y are u8, plus the status
and the owned memory. -/
structure Cpu where
  pc : Nat
  sp : Nat
  a : Nat
  x : Nat
  y : Nat
  ps : ProcessorStatus
  memory : Memory

/-- Guard condition of fetch_byte: self.pc as usize > memory::MAX_MEM. -/
def fetch_guard (pc : Nat) : Bool := decide (MAX_MEM < pc)

/-- Cpu.fetch_byte: panic when the guard fires, otherwise read data[pc] (an
array index, out of bounds when pc is not below MAX_MEM) and increment the
16-bit pc. -/
def Cpu.fetch_byte (cpu : Cpu) : Option (Nat × Cpu) :=
  if fetch_guard cpu.pc then none
  else do
    let data ← cpu.memory.read_byte cpu.pc
    return (data, { cpu with pc := (cpu.pc + 1) % 65536 })

/-- Cpu.fetch_word: two direct data[pc] array reads, low byte first, each
followed by a 16-bit pc increment; no guard in the source here. -/
def Cpu.fetch_word (cpu : Cpu) : Option (Nat × Cpu) := do
  let lo ← cpu.memory.read_byte cpu.pc
  let cpu1 : Cpu := { cpu with pc := (cpu.pc + 1) % 65536 }
  let hi ← cpu1.memory.read_byte cpu1.pc
  return (lo ||| hi <<< 8, { cpu1 with pc := (cpu1.pc + 1) % 65536 })

/-- Cpu.set_negative_and_zero_flags: Z gets a == 0 and N gets bit 7 of a; the
source always reads self.a here, whichever register the caller loaded. -/
def Cpu.set_negative_and_zero_flags (cpu : Cpu) : Cpu :=
  { cpu with ps := { cpu.ps with z := cpu.a == 0, n := decide (0 < cpu.a &&& 128) } }

/-- Cpu.set_carry_flag. -/
def Cpu.set_carry_flag (cpu : Cpu) (flag : Bool) : Cpu :=
  { cpu with ps := { cpu.ps with c := flag } }

/-- Ghost view of the single operand byte an instruction at pc fetches. -/
def Cpu.operand_byte (cpu : Cpu) : Nat := cpu.memory.data cpu.pc

/-- Ghost view of the little-endian operand word an instruction at pc fetches. -/
def Cpu.operand_word (cpu : Cpu) : Nat :=
  cpu.memory.data cpu.pc ||| cpu.memory.data ((cpu.pc + 1) % 65536) <<< 8

/-- Cpu.lda_immediate. -/
def Cpu.lda_immediate (cpu : Cpu) : Option Cpu := do
  let (v, cpu1) ← cpu.fetch_byte
  return Cpu.set_negative_and_zero_flags { cpu1 with a := v }

/-- Cpu.lda_absolute. -/
def Cpu.lda_absolute (cpu : Cpu) : Option Cpu := do
  let (addr, cpu1) ← cpu.fetch_word
  let v ← cpu1.memory.read_byte addr
  return Cpu.set_negative_and_zero_flags { cpu1 with a := v }

/-- Cpu.lda_absolute_x_indexed: fetch_word() + x is u16 addition, wrapping. -/
def Cpu.lda_absolute_x_indexed (cpu : Cpu) : Option Cpu := do
  let (addr, cpu1) ← cpu.fetch_word
  let v ← cpu1.memory.read_byte ((addr + cpu1.x) % 65536)
  return Cpu.set_negative_and_zero_flags { cpu1 with a := v }

/-- Cpu.lda_absolute_y_indexed. -/
def Cpu.lda_absolute_y_indexed (cpu : Cpu) : Option Cpu := do
  let (addr, cpu1) ← cpu.fetch_word
  let v ← cpu1.memory.read_byte ((addr + cpu1.y) % 65536)
  return Cpu.set_negative_and_zero_flags { cpu1 with a := v }

/-- Cpu.lda_zp. -/
def Cpu.lda_zp (cpu : Cpu) : Option Cpu := do
  let (addr, cpu1) ← cpu.fetch_byte
  let v ← cpu1.memory.read_byte addr
  return Cpu.set_negative_and_zero_flags { cpu1 with a := v }

/-- Cpu.lda_zp_x: the source reads the byte at the unindexed zero page address
and adds x to that value with u8 wrapping addition. -/
def Cpu.lda_zp_x (cpu : Cpu) : Option Cpu := do
  let (addr, cpu1) ← cpu.fetch_byte
  let v ← cpu1.memory.read_byte addr
  return Cpu.set_negative_and_zero_flags { cpu1 with a := (v + cpu1.x) % 256 }

/-- Cpu.lda_x_indexed_zero_page_indirect: the source adds x to the operand
with u8 wrapping addition and reads the byte there directly, with no pointer
dereference. -/
def Cpu.lda_x_indexed_zero_page_indirect (cpu : Cpu) : Option Cpu := do
  let (addr, cpu1) ← cpu.fetch_byte
  let v ← cpu1.memory.read_byte ((addr + cpu1.x) % 256)
  return Cpu.set_negative_and_zero_flags { cpu1 with a := v }

/-- Cpu.lda_y_zero_page_indirect_indexed: read a pointer word at the operand,
add y with u16 wrapping addition, dereference. -/
def Cpu.lda_y_zero_page_indirect_indexed (cpu : Cpu) : Option Cpu := do
  let (addr, cpu1) ← cpu.fetch_byte
  let ea ← cpu1.memory.read_word addr
  let v ← cpu1.memory.read_byte ((ea + cpu1.y) % 65536)
  return Cpu.set_negative_and_zero_flags { cpu1 with a := v }

/-- Cpu.ldx_immediate: flags are still recomputed from a by the shared
helper. -/
def Cpu.ldx_immediate (cpu : Cpu) : Option Cpu := do
  let (v, cpu1) ← cpu.fetch_byte
  return Cpu.set_negative_and_zero_flags { cpu1 with x := v }

/-- Cpu.ldx_absolute. -/
def Cpu.ldx_absolute (cpu : Cpu) : Option Cpu := do
  let (addr, cpu1) ← cpu.fetch_word
  let v ← cpu1.memory.read_byte addr
  return Cpu.set_negative_and_zero_flags { cpu1 with x := v }

/-- Cpu.ldx_zp. -/
def Cpu.ldx_zp (cpu : Cpu) : Option Cpu := do
  let (addr, cpu1) ← cpu.fetch_byte
  let v ← cpu1.memory.read_byte addr
  return Cpu.set_negative_and_zero_flags { cpu1 with x := v }

/-- Cpu.ldx_absolute_y_indexed. -/
def Cpu.ldx_absolute_y_indexed (cpu : Cpu) : Option Cpu := do
  let (addr, cpu1) ← cpu.fetch_word
  let v ← cpu1.memory.read_byte ((addr + cpu1.y) % 65536)
  return Cpu.set_negative_and_zero_flags { cpu1 with x := v }

/-- Cpu.ldx_y_indexed_zero_page: like lda_zp_x, the index y is added to the
value read at the unindexed address. -/
def Cpu.ldx_y_indexed_zero_page (cpu : Cpu) : Option Cpu := do
  let (addr, cpu1) ← cpu.fetch_byte
  let v ← cpu1.memory.read_byte addr
  return Cpu.set_negative_and_zero_flags { cpu1 with x := (v + cpu1.y) % 256 }

/-- Cpu.ldy_immediate. -/
def Cpu.ldy_immediate (cpu : Cpu) : Option Cpu := do
  let (v, cpu1) ← cpu.fetch_byte
  return Cpu.set_negative_and_zero_flags { cpu1 with y := v }

/-- Cpu.ldy_absolute. -/
def Cpu.ldy_absolute (cpu : Cpu) : Option Cpu := do
  let (addr, cpu1) ← cpu.fetch_word
  let v ← cpu1.memory.read_byte addr
  return Cpu.set_negative_and_zero_flags { cpu1 with y := v }

/-- Cpu.ldy_zp. -/
def Cpu.ldy_zp (cpu : Cpu) : Option Cpu := do
  let (addr, cpu1) ← cpu.fetch_byte
  let v ← cpu1.memory.read_byte addr
  return Cpu.set_negative_and_zero_flags { cpu1 with y := v }

/-- Cpu.ldy_absolute_x_indexed. -/
def Cpu.ldy_absolute_x_indexed (cpu : Cpu) : Option Cpu := do
  let (addr, cpu1) ← cpu.fetch_word
  let v ← cpu1.memory.read_byte ((addr + cpu1.x) % 65536)
  return Cpu.set_negative_and_zero_flags { cpu1 with y := v }

/-- Cpu.ldy_x_indexed_zero_page: the index x is added to the value read at the
unindexed address. -/
def Cpu.ldy_x_indexed_zero_page (cpu : Cpu) : Option Cpu := do
  let (addr, cpu1) ← cpu.fetch_byte
  let v ← cpu1.memory.read_byte addr
  return Cpu.set_negative_and_zero_flags { cpu1 with y := (v + cpu1.x) % 256 }

/-- Cpu.jump_absolute. -/
def Cpu.jump_absolute (cpu : Cpu) : Option Cpu := do
  let (addr, cpu1) ← cpu.fetch_word
  return { cpu1 with pc := addr }

/-- Cpu.jump_absolute_indirect: read the pointer low byte at the fetched
address; when the low byte of that address is 0xFF the high byte comes from
the start of the same page (address AND 0xFF00), otherwise from address + 1
(usize addition). -/
def Cpu.jump_absolute_indirect (cpu : Cpu) : Option Cpu := do
  let (indirect_address, cpu1) ← cpu.fetch_word
  let low_byte ← cpu1.memory.read_byte indirect_address
  let hi_byte_address :=
    if indirect_address % 256 == 255 then indirect_address &&& 65280
    else indirect_address + 1
  let hi_byte ← cpu1.memory.read_byte hi_byte_address
  return { cpu1 with pc := low_byte ||| hi_byte <<< 8 }

/-- Cpu.jump_subroutine: fetch target, write the word pc - 1 at sp and sp + 1,
then sp -= 2 and pc = target; the u16 subtractions wrap. -/
def Cpu.jump_subroutine (cpu : Cpu) : Option Cpu := do
  let (sub_address, cpu1) ← cpu.fetch_word
  let m ← cpu1.memory.write_word cpu1.sp ((cpu1.pc + 65535) % 65536)
  return { cpu1 with memory := m, sp := (cpu1.sp + 65534) % 65536, pc := sub_address }

/-- Cpu.return_subroutine: sp += 1, read the high byte, sp += 1, read the low
byte, pc = (high <<< 8 ||| low) + 1 with u16 wrap. -/
def Cpu.return_subroutine (cpu : Cpu) : Option Cpu := do
  let sp1 := (cpu.sp + 1) % 65536
  let pch ← cpu.memory.read_byte sp1
  let sp2 := (sp1 + 1) % 65536
  let pcl ← cpu.memory.read_byte sp2
  return { cpu with sp := sp2, pc := ((pch <<< 8 ||| pcl) + 1) % 65536 }

/-- Cpu.anda_abs_x: u16 wrapping index addition, then AND into a. -/
def Cpu.anda_abs_x (cpu : Cpu) : Option Cpu := do
  let (addr, cpu1) ← cpu.fetch_word
  let v ← cpu1.memory.read_byte ((addr + cpu1.x) % 65536)
  return Cpu.set_negative_and_zero_flags { cpu1 with a := cpu1.a &&& v }

/-- Cpu.anda_abs_y. -/
def Cpu.anda_abs_y (cpu : Cpu) : Option Cpu := do
  let (addr, cpu1) ← cpu.fetch_word
  let v ← cpu1.memory.read_byte ((addr + cpu1.y) % 65536)
  return Cpu.set_negative_and_zero_flags { cpu1 with a := cpu1.a &&& v }

/-- Cpu.anda_zp_xi: u8 wrapping add of x to the operand, read a pointer word
there, dereference it, AND the byte into a — one level of indirection. -/
def Cpu.anda_zp_xi (cpu : Cpu) : Option Cpu := do
  let (address, cpu1) ← cpu.fetch_byte
  let indirect_address := (address + cpu1.x) % 256
  let effective_address ← cpu1.memory.read_word indirect_address
  let v ← cpu1.memory.read_byte effective_address
  return Cpu.set_negative_and_zero_flags { cpu1 with a := cpu1.a &&& v }

/-- Cpu.ora_abs_x. -/
def Cpu.ora_abs_x (cpu : Cpu) : Option Cpu := do
  let (addr, cpu1) ← cpu.fetch_word
  let v ← cpu1.memory.read_byte ((addr + cpu1.x) % 65536)
  return Cpu.set_negative_and_zero_flags { cpu1 with a := cpu1.a ||| v }

/-- Cpu.ora_abs_y. -/
def Cpu.ora_abs_y (cpu : Cpu) : Option Cpu := do
  let (addr, cpu1) ← cpu.fetch_word
  let v ← cpu1.memory.read_byte ((addr + cpu1.y) % 65536)
  return Cpu.set_negative_and_zero_flags { cpu1 with a := cpu1.a ||| v }

/-- Cpu.lsr_acc: pure register operation, carry takes bit 0 before the shift,
then Z and N are recomputed from the shifted accumulator. -/
def Cpu.lsr_acc (cpu : Cpu) : Cpu :=
  let carry := cpu.a &&& 1
  let cpu1 := Cpu.set_negative_and_zero_flags { cpu with a := cpu.a >>> 1 }
  cpu1.set_carry_flag (decide (0 < carry))

/-- Cpu.lsr_abs: shift the byte at the absolute address, write it back, clear
N, set Z from the shifted byte, carry from bit 0 before the shift. -/
def Cpu.lsr_abs (cpu : Cpu) : Option Cpu := do
  let (addr, cpu1) ← cpu.fetch_word
  let data ← cpu1.memory.read_byte addr
  let carry := data &&& 1
  let m ← cpu1.memory.write_byte addr (data >>> 1)
  let cpu2 : Cpu :=
    { cpu1 with memory := m,
                ps := { cpu1.ps with n := false, z := data >>> 1 == 0 } }
  return cpu2.set_carry_flag (decide (0 < carry))

/-- Cpu.lsr_zp. -/
def Cpu.lsr_zp (cpu : Cpu) : Option Cpu := do
  let (addr, cpu1) ← cpu.fetch_byte
  let data ← cpu1.memory.read_byte addr
  let carry := data &&& 1
  let m ← cpu1.memory.write_byte addr (data >>> 1)
  let cpu2 : Cpu :=
    { cpu1 with memory := m,
                ps := { cpu1.ps with n := false, z := data >>> 1 == 0 } }
  return cpu2.set_carry_flag (decide (0 < carry))

/-- Cpu.lsr_abs_x: the source computes abs_address + x in usize, with no
16-bit wrap, so an indexed address past 0xFFFF indexes out of bounds. -/
def Cpu.lsr_abs_x (cpu : Cpu) : Option Cpu := do
  let (addr, cpu1) ← cpu.fetch_word
  let effective_address := addr + cpu1.x
  let data ← cpu1.memory.read_byte effective_address
  let carry := data &&& 1
  let m ← cpu1.memory.write_byte effective_address (data >>> 1)
  let cpu2 : Cpu :=
    { cpu1 with memory := m,
                ps := { cpu1.ps with n := false, z := data >>> 1 == 0 } }
  return cpu2.set_carry_flag (decide (0 < carry))

/-- Cpu.lsr_zp_x: usize addition of x to the operand, write back the shifted
byte, but Z and N come from the shared helper reading the accumulator. -/
def Cpu.lsr_zp_x (cpu : Cpu) : Option Cpu := do
  let (addr, cpu1) ← cpu.fetch_byte
  let effective_address := addr + cpu1.x
  let data ← cpu1.memory.read_byte effective_address
  let m ← cpu1.memory.write_byte effective_address (data >>> 1)
  let cpu2 := Cpu.set_negative_and_zero_flags { cpu1 with memory := m }
  return cpu2.set_carry_flag (decide (0 < data &&& 1))

/-- Cpu.pha: write a at sp, then sp -= 1 with u16 wrap. -/
def Cpu.pha (cpu : Cpu) : Option Cpu := do
  let m ← cpu.memory.write_byte cpu.sp cpu.a
  return { cpu with memory := m, sp := (cpu.sp + 65535) % 65536 }

/-- Cpu.php: write the raw packed status byte at sp, then sp -= 1. -/
def Cpu.php (cpu : Cpu) : Option Cpu := do
  let m ← cpu.memory.write_byte cpu.sp cpu.ps.bits
  return { cpu with memory := m, sp := (cpu.sp + 65535) % 65536 }

/-- Cpu.pla: sp += 1, read a from the new sp, recompute Z and N. -/
def Cpu.pla (cpu : Cpu) : Option Cpu := do
  let sp1 := (cpu.sp + 1) % 65536
  let v ← cpu.memory.read_byte sp1
  return Cpu.set_negative_and_zero_flags { cpu with sp := sp1, a := v }

/-- Cpu.plp: sp += 1, read the byte at the new sp, rebuild the status from it
with from_bits_truncate. -/
def Cpu.plp (cpu : Cpu) : Option Cpu := do
  let sp1 := (cpu.sp + 1) % 65536
  let v ← cpu.memory.read_byte sp1
  return { cpu with sp := sp1, ps := ProcessorStatus.from_bits_truncate v }

/-- Cpu.transfer_x_to_sp: sp = 0x0100 OR x, nothing else changes. -/
def Cpu.transfer_x_to_sp (cpu : Cpu) : Cpu :=
  { cpu with sp := 256 ||| cpu.x }

/-- Builder for concrete test memories: association list of address and byte,
every unlisted cell is zero; the mod keeps every cell a byte. -/
def memOf (entries : List (Nat × Nat)) : Memory :=
  ⟨fun j => ((entries.lookup j).getD 0) % 256⟩

/-- Status value with every flag clear, for concrete test states. -/
def psClear : ProcessorStatus := ⟨false, false, false, false, false, false, false⟩

/-- Concrete state for the C1 counterexample: a = 1 so the stale accumulator
drives the flags, ldx_immediate at pc = 0 loads operand 0 into x. -/
def machineC1 : Cpu := ⟨0, 256, 1, 0, 0, psClear, memOf []⟩

/-- Concrete state for the C2 counterexample: operand 66 at pc = 0, x = 1,
value 132 at 66 and value 7 at the indexed address 67. -/
def machineC2 : Cpu := ⟨0, 256, 0, 1, 0, psClear, memOf [(0, 66), (66, 132), (67, 7)]⟩

/-- Concrete state for the C3 counterexample: operand 32 at pc = 0, x = 4, a
pointer word 0x0020 stored at 36 and 37, and value 153 at 32: dereferencing
would load 153, the direct read loads 32. -/
def machineC3 : Cpu := ⟨0, 256, 255, 4, 0, psClear, memOf [(0, 32), (36, 32), (37, 0), (32, 153)]⟩

/-- Concrete state for the C4 code bug: a JSR at 0x1234 has been decoded, so
pc = 0x1235 points at the operand word 0x8000; sp = 0x0100, stack empty. -/
def machineC4 : Cpu := ⟨4661, 256, 0, 0, 0, psClear, memOf [(4661, 0), (4662, 128)]⟩

/-- Concrete state for the C5 witness: pointer address 0xAAFF fetched at
pc = 0, page bytes 0xAAFF = 0xBB and 0xAA00 = 0xBB, and a different byte 0x77
at 0xAB00 to show the next page is not consulted. -/
def machineC5 : Cpu :=
  ⟨0, 256, 0, 0, 0, psClear, memOf [(0, 255), (1, 170), (43775, 187), (43520, 187), (43776, 119)]⟩

/-- Concrete state for the C6 witness: pc at the last 16-bit address. -/
def machineC6 : Cpu := ⟨65535, 256, 0, 0, 0, psClear, memOf [(65535, 42)]⟩

/-- Concrete state for the C7 counterexample: lsr_abs_x fetches base 0xFFFF at
pc = 0 and x = 1 pushes the usize effective address to 0x10000, out of
bounds. -/
def machineC7 : Cpu := ⟨0, 256, 0, 1, 0, psClear, memOf [(0, 255), (1, 255)]⟩

/-- Concrete state for the C7 witness of the wrapping conjuncts: base 0xFFFF
fetched at pc = 0, x = 3 and y = 3, so the u16 effective address wraps to 2,
where the value 99 sits. -/
def machineC7w : Cpu := ⟨0, 256, 255, 3, 3, psClear, memOf [(0, 255), (1, 255), (2, 99)]⟩

/-- Concrete state for the C8 witness: some flags set, a = 77, sp = 0x0150. -/
def machineC8 : Cpu :=
  ⟨0, 336, 77, 0, 0, ⟨true, false, true, false, true, true, false⟩, memOf []⟩

/-- Concrete state for the C9 counterexample: a = 128 makes the shared helper
set N although lsr_zp_x shifted the memory byte 2 at address 16. -/
def machineC9 : Cpu := ⟨0, 256, 128, 0, 0, psClear, memOf [(0, 16), (16, 2)]⟩

/-- Concrete state for the C9 witness: a = 0x83 so lsr_acc shifts to 0x41 with
carry out 1; memory byte 3 at address 16 for the memory modes. -/
def machineC9w : Cpu := ⟨0, 256, 131, 0, 0, psClear, memOf [(0, 16), (16, 3), (4112, 3)]⟩

/-- Concrete state for the C10 witness: x = 0xAA, sp far outside the stack
page. -/
def machineC10 : Cpu := ⟨0, 40000, 5, 170, 9, psClear, memOf []⟩

/-! Reduction helpers for running handlers on symbolic in-range states. -/

/-- Reads below the memory size succeed. -/
theorem read_byte_lt {m : Memory} {addr : Nat} (h : addr < 65536) :
    m.read_byte addr = some (m.data addr) := by
  have hh : addr < MAX_MEM := by unfold MAX_MEM; omega
  simp [Memory.read_byte, hh]

/-- Writes below the memory size succeed and update one cell. -/
theorem write_byte_lt {m : Memory} {addr : Nat} (v : Nat) (h : addr < 65536) :
    m.write_byte addr v = some ⟨fun j => if j = addr then v else m.data j⟩ := by
  have hh : addr < MAX_MEM := by unfold MAX_MEM; omega
  simp [Memory.write_byte, hh]

/-- Word reads whose second cell is still in range succeed. -/
theorem read_word_lt {m : Memory} {addr : Nat} (h : addr + 1 < 65536) :
    m.read_word addr = some (m.data addr ||| m.data (addr + 1) <<< 8) := by
  rw [Memory.read_word]
  show Option.bind _ _ = _
  rw [read_byte_lt (by omega : addr < 65536), Option.bind]
  rw [read_byte_lt h]
  rfl

/-- The fetch guard never fires on a 16-bit pc, so fetch_byte just reads the
opcode cell and advances pc. -/
theorem fetch_byte_lt {cpu : Cpu} (h : cpu.pc < 65536) :
    cpu.fetch_byte = some (cpu.memory.data cpu.pc, { cpu with pc := (cpu.pc + 1) % 65536 }) := by
  have hg : fetch_guard cpu.pc = false := by
    unfold fetch_guard MAX_MEM
    simp only [decide_eq_false_iff_not]
    omega
  have e1 : cpu.memory.read_byte cpu.pc = some (cpu.memory.data cpu.pc) := read_byte_lt h
  simp only [Cpu.fetch_byte, hg, e1]
  rfl

/-- fetch_word on a 16-bit pc returns the little-endian operand word. -/
theorem fetch_word_lt {cpu : Cpu} (h : cpu.pc < 65536) :
    cpu.fetch_word = some (cpu.operand_word,
      { cpu with pc := ((cpu.pc + 1) % 65536 + 1) % 65536 }) := by
  have e1 : cpu.memory.read_byte cpu.pc = some (cpu.memory.data cpu.pc) := read_byte_lt h
  have e2 : cpu.memory.read_byte ((cpu.pc + 1) % 65536) =
      some (cpu.memory.data ((cpu.pc + 1) % 65536)) := read_byte_lt (by omega)
  simp only [Cpu.fetch_word, e1, e2, Cpu.operand_word]
  rfl

/-- A 16-bit word assembled from two bytes stays below 65536. -/
theorem lor_shift_lt {lo hi : Nat} (hlo : lo < 256) (hhi : hi < 256) :
    lo ||| hi <<< 8 < 65536 := by
  have h1 : lo < 2 ^ 16 := by omega
  have h2 : hi <<< 8 < 2 ^ 16 := by
    rw [Nat.shiftLeft_eq]
    have : hi * 2 ^ 8 < 2 ^ 16 := by omega
    omega
  have := Nat.or_lt_two_pow h1 h2
  omega

/-- The operand word of a wellformed memory is a 16-bit address. -/
theorem operand_word_lt {cpu : Cpu} (hm : cpu.memory.Wf) : cpu.operand_word < 65536 :=
  lor_shift_lt (hm _) (hm _)

/-- The condition the source uses for the N flag is exactly bit 7. -/
theorem decide_and128 (a : Nat) : decide (0 < a &&& 128) = a.testBit 7 := by
  have h := Nat.and_two_pow a 7
  norm_num at h
  rw [h]
  cases hb : a.testBit 7 <;> simp [hb]

/-- The condition the source uses for the carry out of a right shift is
exactly bit 0. -/
theorem decide_and1 (a : Nat) : decide (0 < a &&& 1) = a.testBit 0 := by
  rw [Nat.and_one_is_mod, Nat.testBit_zero]
  rcases Nat.mod_two_eq_zero_or_one a with h | h <;> simp [h]

/-- Bit 7 of a shifted byte is always clear. -/
theorem testBit7_shiftRight {a : Nat} (h : a < 256) : (a >>> 1).testBit 7 = false := by
  apply Nat.testBit_lt_two_pow
  have := Nat.shiftRight_eq_div_pow a 1
  omega

/-- set_negative_and_zero_flags only rewrites Z and N, from the accumulator. -/
theorem snz_fields (c : Cpu) :
    (c.set_negative_and_zero_flags).a = c.a ∧ (c.set_negative_and_zero_flags).x = c.x ∧
    (c.set_negative_and_zero_flags).y = c.y ∧ (c.set_negative_and_zero_flags).pc = c.pc ∧
    (c.set_negative_and_zero_flags).sp = c.sp ∧
    (c.set_negative_and_zero_flags).memory = c.memory :=
  ⟨rfl, rfl, rfl, rfl, rfl, rfl⟩

/-- The Z flag written by the helper is true exactly on a zero accumulator. -/
theorem snz_z (c : Cpu) : ((c.set_negative_and_zero_flags).ps.z = true) ↔ c.a = 0 := by
  simp [Cpu.set_negative_and_zero_flags]

/-- The N flag written by the helper is bit 7 of the accumulator. -/
theorem snz_n (c : Cpu) : (c.set_negative_and_zero_flags).ps.n = c.a.testBit 7 := by
  simp only [Cpu.set_negative_and_zero_flags]
  exact decide_and128 c.a

/-- Concrete test memories are wellformed byte arrays. -/
theorem memOf_wf (entries : List (Nat × Nat)) : (memOf entries).Wf := by
  intro j
  simp only [memOf]
  omega

/-! Evaluation lemmas: each load handler run on a state with a 16-bit pc and a
byte-valued memory. -/

/-- lda_immediate loads the fetched operand byte. -/
theorem lda_immediate_eval {cpu : Cpu} (hpc : cpu.pc < 65536) :
    cpu.lda_immediate = some (Cpu.set_negative_and_zero_flags
      { cpu with pc := (cpu.pc + 1) % 65536, a := cpu.memory.data cpu.pc }) := by
  rw [Cpu.lda_immediate, fetch_byte_lt hpc]
  rfl

/-- lda_absolute loads the byte at the operand word. -/
theorem lda_absolute_eval {cpu : Cpu} (hpc : cpu.pc < 65536) (hm : cpu.memory.Wf) :
    cpu.lda_absolute = some (Cpu.set_negative_and_zero_flags
      { cpu with pc := ((cpu.pc + 1) % 65536 + 1) % 65536,
                 a := cpu.memory.data cpu.operand_word }) := by
  rw [Cpu.lda_absolute, fetch_word_lt hpc]
  show Option.bind _ _ = _
  rw [Option.bind]
  simp only [read_byte_lt (operand_word_lt hm)]
  rfl

/-- lda_absolute_x_indexed loads the byte at the wrapped indexed address. -/
theorem lda_absolute_x_indexed_eval {cpu : Cpu} (hpc : cpu.pc < 65536) :
    cpu.lda_absolute_x_indexed = some (Cpu.set_negative_and_zero_flags
      { cpu with pc := ((cpu.pc + 1) % 65536 + 1) % 65536,
                 a := cpu.memory.data ((cpu.operand_word + cpu.x) % 65536) }) := by
  rw [Cpu.lda_absolute_x_indexed, fetch_word_lt hpc]
  show Option.bind _ _ = _
  rw [Option.bind]
  simp only [read_byte_lt (Nat.mod_lt _ (by norm_num) : (cpu.operand_word + cpu.x) % 65536 < 65536)]
  rfl

/-- lda_absolute_y_indexed loads the byte at the wrapped indexed address. -/
theorem lda_absolute_y_indexed_eval {cpu : Cpu} (hpc : cpu.pc < 65536) :
    cpu.lda_absolute_y_indexed = some (Cpu.set_negative_and_zero_flags
      { cpu with pc := ((cpu.pc + 1) % 65536 + 1) % 65536,
                 a := cpu.memory.data ((cpu.operand_word + cpu.y) % 65536) }) := by
  rw [Cpu.lda_absolute_y_indexed, fetch_word_lt hpc]
  show Option.bind _ _ = _
  rw [Option.bind]
  simp only [read_byte_lt (Nat.mod_lt _ (by norm_num) : (cpu.operand_word + cpu.y) % 65536 < 65536)]
  rfl

/-- lda_zp loads the byte at the operand. -/
theorem lda_zp_eval {cpu : Cpu} (hpc : cpu.pc < 65536) (hm : cpu.memory.Wf) :
    cpu.lda_zp = some (Cpu.set_negative_and_zero_flags
      { cpu with pc := (cpu.pc + 1) % 65536,
                 a := cpu.memory.data (cpu.memory.data cpu.pc) }) := by
  have hb : cpu.memory.data cpu.pc < 256 := hm _
  rw [Cpu.lda_zp, fetch_byte_lt hpc]
  show Option.bind _ _ = _
  rw [Option.bind]
  simp only [read_byte_lt (by omega : cpu.memory.data cpu.pc < 65536)]
  rfl

/-- lda_zp_x adds x to the byte read at the unindexed operand. -/
theorem lda_zp_x_eval {cpu : Cpu} (hpc : cpu.pc < 65536) (hm : cpu.memory.Wf) :
    cpu.lda_zp_x = some (Cpu.set_negative_and_zero_flags
      { cpu with pc := (cpu.pc + 1) % 65536,
                 a := (cpu.memory.data (cpu.memory.data cpu.pc) + cpu.x) % 256 }) := by
  have hb : cpu.memory.data cpu.pc < 256 := hm _
  rw [Cpu.lda_zp_x, fetch_byte_lt hpc]
  show Option.bind _ _ = _
  rw [Option.bind]
  simp only [read_byte_lt (by omega : cpu.memory.data cpu.pc < 65536)]
  rfl

/-- lda_x_indexed_zero_page_indirect reads directly at operand + x mod 256. -/
theorem lda_x_indexed_zero_page_indirect_eval {cpu : Cpu} (hpc : cpu.pc < 65536) :
    cpu.lda_x_indexed_zero_page_indirect = some (Cpu.set_negative_and_zero_flags
      { cpu with pc := (cpu.pc + 1) % 65536,
                 a := cpu.memory.data ((cpu.memory.data cpu.pc + cpu.x) % 256) }) := by
  rw [Cpu.lda_x_indexed_zero_page_indirect, fetch_byte_lt hpc]
  show Option.bind _ _ = _
  rw [Option.bind]
  simp only [read_byte_lt
    (by omega : (cpu.memory.data cpu.pc + cpu.x) % 256 < 65536)]
  rfl

/-- lda_y_zero_page_indirect_indexed reads a pointer word at the operand, adds
y with 16-bit wrap and dereferences. -/
theorem lda_y_zero_page_indirect_indexed_eval {cpu : Cpu} (hpc : cpu.pc < 65536)
    (hm : cpu.memory.Wf) :
    cpu.lda_y_zero_page_indirect_indexed = some (Cpu.set_negative_and_zero_flags
      { cpu with pc := (cpu.pc + 1) % 65536,
                 a := cpu.memory.data
                   (((cpu.memory.data (cpu.memory.data cpu.pc) |||
                      cpu.memory.data (cpu.memory.data cpu.pc + 1) <<< 8) + cpu.y) % 65536) }) := by
  have hb : cpu.memory.data cpu.pc < 256 := hm _
  rw [Cpu.lda_y_zero_page_indirect_indexed, fetch_byte_lt hpc]
  show Option.bind _ _ = _
  rw [Option.bind]
  simp only [read_word_lt (by omega : cpu.memory.data cpu.pc + 1 < 65536)]
  show Option.bind _ _ = _
  rw [Option.bind]
  simp only [read_byte_lt (Nat.mod_lt _ (by norm_num) :
    ((cpu.memory.data (cpu.memory.data cpu.pc) |||
      cpu.memory.data (cpu.memory.data cpu.pc + 1) <<< 8) + cpu.y) % 65536 < 65536)]
  rfl

/-- ldx_immediate loads x with the operand but flags come from a. -/
theorem ldx_immediate_eval {cpu : Cpu} (hpc : cpu.pc < 65536) :
    cpu.ldx_immediate = some (Cpu.set_negative_and_zero_flags
      { cpu with pc := (cpu.pc + 1) % 65536, x := cpu.memory.data cpu.pc }) := by
  rw [Cpu.ldx_immediate, fetch_byte_lt hpc]
  rfl

/-- ldx_absolute loads x with the byte at the operand word. -/
theorem ldx_absolute_eval {cpu : Cpu} (hpc : cpu.pc < 65536) (hm : cpu.memory.Wf) :
    cpu.ldx_absolute = some (Cpu.set_negative_and_zero_flags
      { cpu with pc := ((cpu.pc + 1) % 65536 + 1) % 65536,
                 x := cpu.memory.data cpu.operand_word }) := by
  rw [Cpu.ldx_absolute, fetch_word_lt hpc]
  show Option.bind _ _ = _
  rw [Option.bind]
  simp only [read_byte_lt (operand_word_lt hm)]
  rfl

/-- ldx_zp loads x with the byte at the operand. -/
theorem ldx_zp_eval {cpu : Cpu} (hpc : cpu.pc < 65536) (hm : cpu.memory.Wf) :
    cpu.ldx_zp = some (Cpu.set_negative_and_zero_flags
      { cpu with pc := (cpu.pc + 1) % 65536,
                 x := cpu.memory.data (cpu.memory.data cpu.pc) }) := by
  have hb : cpu.memory.data cpu.pc < 256 := hm _
  rw [Cpu.ldx_zp, fetch_byte_lt hpc]
  show Option.bind _ _ = _
  rw [Option.bind]
  simp only [read_byte_lt (by omega : cpu.memory.data cpu.pc < 65536)]
  rfl

/-- ldx_absolute_y_indexed loads x at the wrapped indexed address. -/
theorem ldx_absolute_y_indexed_eval {cpu : Cpu} (hpc : cpu.pc < 65536) :
    cpu.ldx_absolute_y_indexed = some (Cpu.set_negative_and_zero_flags
      { cpu with pc := ((cpu.pc + 1) % 65536 + 1) % 65536,
                 x := cpu.memory.data ((cpu.operand_word + cpu.y) % 65536) }) := by
  rw [Cpu.ldx_absolute_y_indexed, fetch_word_lt hpc]
  show Option.bind _ _ = _
  rw [Option.bind]
  simp only [read_byte_lt (Nat.mod_lt _ (by norm_num) : (cpu.operand_word + cpu.y) % 65536 < 65536)]
  rfl

/-- ldx_y_indexed_zero_page adds y to the byte read at the operand. -/
theorem ldx_y_indexed_zero_page_eval {cpu : Cpu} (hpc : cpu.pc < 65536) (hm : cpu.memory.Wf) :
    cpu.ldx_y_indexed_zero_page = some (Cpu.set_negative_and_zero_flags
      { cpu with pc := (cpu.pc + 1) % 65536,
                 x := (cpu.memory.data (cpu.memory.data cpu.pc) + cpu.y) % 256 }) := by
  have hb : cpu.memory.data cpu.pc < 256 := hm _
  rw [Cpu.ldx_y_indexed_zero_page, fetch_byte_lt hpc]
  show Option.bind _ _ = _
  rw [Option.bind]
  simp only [read_byte_lt (by omega : cpu.memory.data cpu.pc < 65536)]
  rfl

/-- ldy_immediate loads y with the operand but flags come from a. -/
theorem ldy_immediate_eval {cpu : Cpu} (hpc : cpu.pc < 65536) :
    cpu.ldy_immediate = some (Cpu.set_negative_and_zero_flags
      { cpu with pc := (cpu.pc + 1) % 65536, y := cpu.memory.data cpu.pc }) := by
  rw [Cpu.ldy_immediate, fetch_byte_lt hpc]
  rfl

/-- ldy_absolute loads y with the byte at the operand word. -/
theorem ldy_absolute_eval {cpu : Cpu} (hpc : cpu.pc < 65536) (hm : cpu.memory.Wf) :
    cpu.ldy_absolute = some (Cpu.set_negative_and_zero_flags
      { cpu with pc := ((cpu.pc + 1) % 65536 + 1) % 65536,
                 y := cpu.memory.data cpu.operand_word }) := by
  rw [Cpu.ldy_absolute, fetch_word_lt hpc]
  show Option.bind _ _ = _
  rw [Option.bind]
  simp only [read_byte_lt (operand_word_lt hm)]
  rfl

/-- ldy_zp loads y with the byte at the operand. -/
theorem ldy_zp_eval {cpu : Cpu} (hpc : cpu.pc < 65536) (hm : cpu.memory.Wf) :
    cpu.ldy_zp = some (Cpu.set_negative_and_zero_flags
      { cpu with pc := (cpu.pc + 1) % 65536,
                 y := cpu.memory.data (cpu.memory.data cpu.pc) }) := by
  have hb : cpu.memory.data cpu.pc < 256 := hm _
  rw [Cpu.ldy_zp, fetch_byte_lt hpc]
  show Option.bind _ _ = _
  rw [Option.bind]
  simp only [read_byte_lt (by omega : cpu.memory.data cpu.pc < 65536)]
  rfl

/-- ldy_absolute_x_indexed loads y at the wrapped indexed address. -/
theorem ldy_absolute_x_indexed_eval {cpu : Cpu} (hpc : cpu.pc < 65536) :
    cpu.ldy_absolute_x_indexed = some (Cpu.set_negative_and_zero_flags
      { cpu with pc := ((cpu.pc + 1) % 65536 + 1) % 65536,
                 y := cpu.memory.data ((cpu.operand_word + cpu.x) % 65536) }) := by
  rw [Cpu.ldy_absolute_x_indexed, fetch_word_lt hpc]
  show Option.bind _ _ = _
  rw [Option.bind]
  simp only [read_byte_lt (Nat.mod_lt _ (by norm_num) : (cpu.operand_word + cpu.x) % 65536 < 65536)]
  rfl

/-- ldy_x_indexed_zero_page adds x to the byte read at the operand. -/
theorem ldy_x_indexed_zero_page_eval {cpu : Cpu} (hpc : cpu.pc < 65536) (hm : cpu.memory.Wf) :
    cpu.ldy_x_indexed_zero_page = some (Cpu.set_negative_and_zero_flags
      { cpu with pc := (cpu.pc + 1) % 65536,
                 y := (cpu.memory.data (cpu.memory.data cpu.pc) + cpu.x) % 256 }) := by
  have hb : cpu.memory.data cpu.pc < 256 := hm _
  rw [Cpu.ldy_x_indexed_zero_page, fetch_byte_lt hpc]
  show Option.bind _ _ = _
  rw [Option.bind]
  simp only [read_byte_lt (by omega : cpu.memory.data cpu.pc < 65536)]
  rfl

/-- anda_abs_x reads at the wrapped indexed address and ANDs into a. -/
theorem anda_abs_x_eval {cpu : Cpu} (hpc : cpu.pc < 65536) :
    cpu.anda_abs_x = some (Cpu.set_negative_and_zero_flags
      { cpu with pc := ((cpu.pc + 1) % 65536 + 1) % 65536,
                 a := cpu.a &&& cpu.memory.data ((cpu.operand_word + cpu.x) % 65536) }) := by
  rw [Cpu.anda_abs_x, fetch_word_lt hpc]
  show Option.bind _ _ = _
  rw [Option.bind]
  simp only [read_byte_lt (Nat.mod_lt _ (by norm_num) : (cpu.operand_word + cpu.x) % 65536 < 65536)]
  rfl

/-- anda_abs_y reads at the wrapped indexed address and ANDs into a. -/
theorem anda_abs_y_eval {cpu : Cpu} (hpc : cpu.pc < 65536) :
    cpu.anda_abs_y = some (Cpu.set_negative_and_zero_flags
      { cpu with pc := ((cpu.pc + 1) % 65536 + 1) % 65536,
                 a := cpu.a &&& cpu.memory.data ((cpu.operand_word + cpu.y) % 65536) }) := by
  rw [Cpu.anda_abs_y, fetch_word_lt hpc]
  show Option.bind _ _ = _
  rw [Option.bind]
  simp only [read_byte_lt (Nat.mod_lt _ (by norm_num) : (cpu.operand_word + cpu.y) % 65536 < 65536)]
  rfl

/-- ora_abs_x reads at the wrapped indexed address and ORs into a. -/
theorem ora_abs_x_eval {cpu : Cpu} (hpc : cpu.pc < 65536) :
    cpu.ora_abs_x = some (Cpu.set_negative_and_zero_flags
      { cpu with pc := ((cpu.pc + 1) % 65536 + 1) % 65536,
                 a := cpu.a ||| cpu.memory.data ((cpu.operand_word + cpu.x) % 65536) }) := by
  rw [Cpu.ora_abs_x, fetch_word_lt hpc]
  show Option.bind _ _ = _
  rw [Option.bind]
  simp only [read_byte_lt (Nat.mod_lt _ (by norm_num) : (cpu.operand_word + cpu.x) % 65536 < 65536)]
  rfl

/-- ora_abs_y reads at the wrapped indexed address and ORs into a. -/
theorem ora_abs_y_eval {cpu : Cpu} (hpc : cpu.pc < 65536) :
    cpu.ora_abs_y = some (Cpu.set_negative_and_zero_flags
      { cpu with pc := ((cpu.pc + 1) % 65536 + 1) % 65536,
                 a := cpu.a ||| cpu.memory.data ((cpu.operand_word + cpu.y) % 65536) }) := by
  rw [Cpu.ora_abs_y, fetch_word_lt hpc]
  show Option.bind _ _ = _
  rw [Option.bind]
  simp only [read_byte_lt (Nat.mod_lt _ (by norm_num) : (cpu.operand_word + cpu.y) % 65536 < 65536)]
  rfl

/-- anda_zp_xi dereferences the pointer word at operand + x mod 256. -/
theorem anda_zp_xi_eval {cpu : Cpu} (hpc : cpu.pc < 65536) (hm : cpu.memory.Wf) :
    cpu.anda_zp_xi = some (Cpu.set_negative_and_zero_flags
      { cpu with pc := (cpu.pc + 1) % 65536,
                 a := cpu.a &&& cpu.memory.data
                   (cpu.memory.data ((cpu.memory.data cpu.pc + cpu.x) % 256) |||
                    cpu.memory.data ((cpu.memory.data cpu.pc + cpu.x) % 256 + 1) <<< 8) }) := by
  rw [Cpu.anda_zp_xi, fetch_byte_lt hpc]
  show Option.bind _ _ = _
  rw [Option.bind]
  simp only [read_word_lt (by omega : (cpu.memory.data cpu.pc + cpu.x) % 256 + 1 < 65536)]
  show Option.bind _ _ = _
  rw [Option.bind]
  simp only [read_byte_lt (lor_shift_lt (hm _) (hm _))]
  rfl

/-- jump_absolute_indirect when the pointer address has low byte 0xFF: the
high byte comes from the start of the same page. -/
theorem jump_absolute_indirect_wrap_eval {cpu : Cpu} (hpc : cpu.pc < 65536) (hm : cpu.memory.Wf)
    (hlow : cpu.operand_word % 256 = 255) :
    cpu.jump_absolute_indirect = some
      { cpu with pc := cpu.memory.data cpu.operand_word |||
          cpu.memory.data (cpu.operand_word &&& 65280) <<< 8 } := by
  have hmask : cpu.operand_word &&& 65280 < 65536 := by
    have := Nat.and_le_left (n := cpu.operand_word) (m := 65280)
    have := operand_word_lt hm
    omega
  rw [Cpu.jump_absolute_indirect, fetch_word_lt hpc]
  show Option.bind _ _ = _
  rw [Option.bind]
  simp only [read_byte_lt (operand_word_lt hm)]
  show Option.bind _ _ = _
  rw [Option.bind]
  simp only [hlow, beq_self_eq_true, if_true, read_byte_lt hmask]
  rfl

/-- pha writes the accumulator at sp and steps sp down with 16-bit wrap. -/
theorem pha_eval {cpu : Cpu} (hsp : cpu.sp < 65536) :
    cpu.pha = some
      { cpu with memory := ⟨fun j => if j = cpu.sp then cpu.a else cpu.memory.data j⟩,
                 sp := (cpu.sp + 65535) % 65536 } := by
  rw [Cpu.pha]
  show Option.bind _ _ = _
  rw [write_byte_lt _ hsp, Option.bind]
  rfl

/-- php writes the raw packed status byte at sp and steps sp down. -/
theorem php_eval {cpu : Cpu} (hsp : cpu.sp < 65536) :
    cpu.php = some
      { cpu with memory := ⟨fun j => if j = cpu.sp then cpu.ps.bits else cpu.memory.data j⟩,
                 sp := (cpu.sp + 65535) % 65536 } := by
  rw [Cpu.php]
  show Option.bind _ _ = _
  rw [write_byte_lt _ hsp, Option.bind]
  rfl

/-- pla steps sp up and loads the accumulator from the new sp. -/
theorem pla_eval (cpu : Cpu) :
    cpu.pla = some (Cpu.set_negative_and_zero_flags
      { cpu with sp := (cpu.sp + 1) % 65536,
                 a := cpu.memory.data ((cpu.sp + 1) % 65536) }) := by
  rw [Cpu.pla]
  show Option.bind _ _ = _
  rw [read_byte_lt (Nat.mod_lt _ (by norm_num)), Option.bind]
  rfl

/-- plp steps sp up and rebuilds the status from the byte at the new sp. -/
theorem plp_eval (cpu : Cpu) :
    cpu.plp = some
      { cpu with sp := (cpu.sp + 1) % 65536,
                 ps := ProcessorStatus.from_bits_truncate
                   (cpu.memory.data ((cpu.sp + 1) % 65536)) } := by
  rw [Cpu.plp]
  show Option.bind _ _ = _
  rw [read_byte_lt (Nat.mod_lt _ (by norm_num)), Option.bind]
  rfl

/-- from_bits_truncate inverts bits on every reachable status value. -/
theorem from_bits_truncate_bits (ps : ProcessorStatus) :
    ProcessorStatus.from_bits_truncate ps.bits = ps := by
  obtain ⟨fn, fv, fb, fd, fi, fz, fc⟩ := ps
  cases fn <;> cases fv <;> cases fb <;> cases fd <;> cases fi <;> cases fz <;> cases fc <;> rfl

/-- lsr_abs shifts the byte at the operand word, writing it back, with N
cleared, Z from the shifted byte, C from bit 0 before the shift. -/
theorem lsr_abs_eval {cpu : Cpu} (hpc : cpu.pc < 65536) (hm : cpu.memory.Wf) :
    cpu.lsr_abs = some (Cpu.set_carry_flag
      { cpu with pc := ((cpu.pc + 1) % 65536 + 1) % 65536,
                 memory := ⟨fun j => if j = cpu.operand_word
                   then cpu.memory.data cpu.operand_word >>> 1 else cpu.memory.data j⟩,
                 ps := { cpu.ps with n := false, z := cpu.memory.data cpu.operand_word >>> 1 == 0 } }
      (decide (0 < cpu.memory.data cpu.operand_word &&& 1))) := by
  rw [Cpu.lsr_abs, fetch_word_lt hpc]
  show Option.bind _ _ = _
  rw [Option.bind]
  simp only [read_byte_lt (operand_word_lt hm)]
  show Option.bind _ _ = _
  rw [Option.bind]
  simp only [write_byte_lt _ (operand_word_lt hm)]
  rfl

/-- lsr_zp shifts the byte at the operand, writing it back. -/
theorem lsr_zp_eval {cpu : Cpu} (hpc : cpu.pc < 65536) (hm : cpu.memory.Wf) :
    cpu.lsr_zp = some (Cpu.set_carry_flag
      { cpu with pc := (cpu.pc + 1) % 65536,
                 memory := ⟨fun j => if j = cpu.memory.data cpu.pc
                   then cpu.memory.data (cpu.memory.data cpu.pc) >>> 1 else cpu.memory.data j⟩,
                 ps := { cpu.ps with n := false, z := cpu.memory.data (cpu.memory.data cpu.pc) >>> 1 == 0 } }
      (decide (0 < cpu.memory.data (cpu.memory.data cpu.pc) &&& 1))) := by
  have hb : cpu.memory.data cpu.pc < 256 := hm _
  rw [Cpu.lsr_zp, fetch_byte_lt hpc]
  show Option.bind _ _ = _
  rw [Option.bind]
  simp only [read_byte_lt (by omega : cpu.memory.data cpu.pc < 65536)]
  show Option.bind _ _ = _
  rw [Option.bind]
  simp only [write_byte_lt _ (by omega : cpu.memory.data cpu.pc < 65536)]
  rfl

/-- lsr_abs_x with the usize sum still in range shifts the byte there. -/
theorem lsr_abs_x_eval {cpu : Cpu} (hpc : cpu.pc < 65536)
    (hlt : cpu.operand_word + cpu.x < 65536) :
    cpu.lsr_abs_x = some (Cpu.set_carry_flag
      { cpu with pc := ((cpu.pc + 1) % 65536 + 1) % 65536,
                 memory := ⟨fun j => if j = cpu.operand_word + cpu.x
                   then cpu.memory.data (cpu.operand_word + cpu.x) >>> 1 else cpu.memory.data j⟩,
                 ps := { cpu.ps with n := false, z := cpu.memory.data (cpu.operand_word + cpu.x) >>> 1 == 0 } }
      (decide (0 < cpu.memory.data (cpu.operand_word + cpu.x) &&& 1))) := by
  rw [Cpu.lsr_abs_x, fetch_word_lt hpc]
  show Option.bind _ _ = _
  rw [Option.bind]
  simp only [read_byte_lt hlt]
  show Option.bind _ _ = _
  rw [Option.bind]
  simp only [write_byte_lt _ hlt]
  rfl

/-- lsr_abs_x with the usize sum past the memory size panics: the source adds
the index in usize, so there is no 16-bit wrap before indexing. -/
theorem lsr_abs_x_fault {cpu : Cpu} (hpc : cpu.pc < 65536)
    (hbig : 65536 ≤ cpu.operand_word + cpu.x) :
    cpu.lsr_abs_x = none := by
  have hnot : ¬ (cpu.operand_word + cpu.x < MAX_MEM) := by unfold MAX_MEM; omega
  have hnone : cpu.memory.read_byte (cpu.operand_word + cpu.x) = none := by
    simp [Memory.read_byte, hnot]
  rw [Cpu.lsr_abs_x, fetch_word_lt hpc]
  show Option.bind _ _ = _
  rw [Option.bind]
  simp only [hnone]
  rfl

/-- lsr_zp_x shifts the byte at operand + x, but Z and N come from the shared
helper reading the unchanged accumulator. -/
theorem lsr_zp_x_eval {cpu : Cpu} (hpc : cpu.pc < 65536) (hm : cpu.memory.Wf)
    (hx : cpu.x < 256) :
    cpu.lsr_zp_x = some (Cpu.set_carry_flag
      (Cpu.set_negative_and_zero_flags
        { cpu with pc := (cpu.pc + 1) % 65536,
                   memory := ⟨fun j => if j = cpu.memory.data cpu.pc + cpu.x
                     then cpu.memory.data (cpu.memory.data cpu.pc + cpu.x) >>> 1
                     else cpu.memory.data j⟩ })
      (decide (0 < cpu.memory.data (cpu.memory.data cpu.pc + cpu.x) &&& 1))) := by
  have hb : cpu.memory.data cpu.pc < 256 := hm _
  rw [Cpu.lsr_zp_x, fetch_byte_lt hpc]
  show Option.bind _ _ = _
  rw [Option.bind]
  simp only [read_byte_lt (by omega : cpu.memory.data cpu.pc + cpu.x < 65536)]
  show Option.bind _ _ = _
  rw [Option.bind]
  simp only [write_byte_lt _ (by omega : cpu.memory.data cpu.pc + cpu.x < 65536)]
  rfl

/-- Word reads at the last 16-bit address panic on address + 1. -/
theorem read_word_top_fault (m : Memory) : m.read_word 65535 = none := by
  have hnone : m.read_byte (65535 + 1) = none := by
    have hnot : ¬ (65535 + 1 < MAX_MEM) := by unfold MAX_MEM; omega
    simp [Memory.read_byte, hnot]
  rw [Memory.read_word]
  show Option.bind _ _ = _
  rw [read_byte_lt (by omega : (65535 : Nat) < 65536), Option.bind]
  simp only [hnone]
  rfl

/-- Word writes at the last 16-bit address panic on address + 1. -/
theorem write_word_top_fault (m : Memory) (v : Nat) : m.write_word 65535 v = none := by
  have hnone : ∀ m1 : Memory, m1.write_byte (65535 + 1) ((v >>> 8) &&& 255) = none := by
    intro m1
    have hnot : ¬ (65535 + 1 < MAX_MEM) := by unfold MAX_MEM; omega
    simp [Memory.write_byte, hnot]
  rw [Memory.write_word]
  show Option.bind _ _ = _
  rw [write_byte_lt _ (by omega : (65535 : Nat) < 65536), Option.bind]
  rw [hnone]

/-! Claim theorems. -/

/-- Claim C1, counterexample: ldx_immediate on a state with a stale nonzero
accumulator loads x = 0 but leaves the Zero flag clear, because
set_negative_and_zero_flags reads the accumulator, so Zero is not equivalent
to the destination register being zero. -/
theorem C1_counterexample :
    (Cpu.ldx_immediate machineC1).map (fun c => (c.x, c.ps.z)) ≠ some (0, true) ∧
    (Cpu.ldx_immediate machineC1).map (fun c => (c.x, c.ps.z)) = some (0, false) := by
  constructor <;> decide

/-- Claim C1 (amended): every load handler succeeds on an in-range state; the
destination register receives the value the handler computes (the byte at the
documented effective address for the immediate, absolute, absolute-indexed,
plain zero-page and zero-page-indirect-Y modes; the byte at the unindexed
operand plus the index, mod 256, for the zero-page X/Y-indexed modes; the byte
directly at operand + X mod 256 for the X-indexed-indirect accumulator load);
and the Zero flag is set iff the accumulator after execution is 0 while the
Negative flag equals bit 7 of the accumulator after execution — which is the
destination for A-loads but the unchanged accumulator for X and Y loads. -/
theorem C1_loads (cpu : Cpu) (hpc : cpu.pc < 65536) (hm : cpu.memory.Wf) :
    (∃ c2, cpu.lda_immediate = some c2 ∧ c2.a = cpu.operand_byte ∧
      (c2.ps.z = true ↔ c2.a = 0) ∧ c2.ps.n = c2.a.testBit 7) ∧
    (∃ c2, cpu.lda_absolute = some c2 ∧ c2.a = cpu.memory.data cpu.operand_word ∧
      (c2.ps.z = true ↔ c2.a = 0) ∧ c2.ps.n = c2.a.testBit 7) ∧
    (∃ c2, cpu.lda_absolute_x_indexed = some c2 ∧
      c2.a = cpu.memory.data ((cpu.operand_word + cpu.x) % 65536) ∧
      (c2.ps.z = true ↔ c2.a = 0) ∧ c2.ps.n = c2.a.testBit 7) ∧
    (∃ c2, cpu.lda_absolute_y_indexed = some c2 ∧
      c2.a = cpu.memory.data ((cpu.operand_word + cpu.y) % 65536) ∧
      (c2.ps.z = true ↔ c2.a = 0) ∧ c2.ps.n = c2.a.testBit 7) ∧
    (∃ c2, cpu.lda_zp = some c2 ∧ c2.a = cpu.memory.data cpu.operand_byte ∧
      (c2.ps.z = true ↔ c2.a = 0) ∧ c2.ps.n = c2.a.testBit 7) ∧
    (∃ c2, cpu.lda_zp_x = some c2 ∧
      c2.a = (cpu.memory.data cpu.operand_byte + cpu.x) % 256 ∧
      (c2.ps.z = true ↔ c2.a = 0) ∧ c2.ps.n = c2.a.testBit 7) ∧
    (∃ c2, cpu.lda_x_indexed_zero_page_indirect = some c2 ∧
      c2.a = cpu.memory.data ((cpu.operand_byte + cpu.x) % 256) ∧
      (c2.ps.z = true ↔ c2.a = 0) ∧ c2.ps.n = c2.a.testBit 7) ∧
    (∃ c2, cpu.lda_y_zero_page_indirect_indexed = some c2 ∧
      c2.a = cpu.memory.data
        (((cpu.memory.data cpu.operand_byte |||
           cpu.memory.data (cpu.operand_byte + 1) <<< 8) + cpu.y) % 65536) ∧
      (c2.ps.z = true ↔ c2.a = 0) ∧ c2.ps.n = c2.a.testBit 7) ∧
    (∃ c2, cpu.ldx_immediate = some c2 ∧ c2.x = cpu.operand_byte ∧ c2.a = cpu.a ∧
      (c2.ps.z = true ↔ c2.a = 0) ∧ c2.ps.n = c2.a.testBit 7) ∧
    (∃ c2, cpu.ldx_absolute = some c2 ∧ c2.x = cpu.memory.data cpu.operand_word ∧
      c2.a = cpu.a ∧ (c2.ps.z = true ↔ c2.a = 0) ∧ c2.ps.n = c2.a.testBit 7) ∧
    (∃ c2, cpu.ldx_zp = some c2 ∧ c2.x = cpu.memory.data cpu.operand_byte ∧
      c2.a = cpu.a ∧ (c2.ps.z = true ↔ c2.a = 0) ∧ c2.ps.n = c2.a.testBit 7) ∧
    (∃ c2, cpu.ldx_absolute_y_indexed = some c2 ∧
      c2.x = cpu.memory.data ((cpu.operand_word + cpu.y) % 65536) ∧
      c2.a = cpu.a ∧ (c2.ps.z = true ↔ c2.a = 0) ∧ c2.ps.n = c2.a.testBit 7) ∧
    (∃ c2, cpu.ldx_y_indexed_zero_page = some c2 ∧
      c2.x = (cpu.memory.data cpu.operand_byte + cpu.y) % 256 ∧
      c2.a = cpu.a ∧ (c2.ps.z = true ↔ c2.a = 0) ∧ c2.ps.n = c2.a.testBit 7) ∧
    (∃ c2, cpu.ldy_immediate = some c2 ∧ c2.y = cpu.operand_byte ∧ c2.a = cpu.a ∧
      (c2.ps.z = true ↔ c2.a = 0) ∧ c2.ps.n = c2.a.testBit 7) ∧
    (∃ c2, cpu.ldy_absolute = some c2 ∧ c2.y = cpu.memory.data cpu.operand_word ∧
      c2.a = cpu.a ∧ (c2.ps.z = true ↔ c2.a = 0) ∧ c2.ps.n = c2.a.testBit 7) ∧
    (∃ c2, cpu.ldy_zp = some c2 ∧ c2.y = cpu.memory.data cpu.operand_byte ∧
      c2.a = cpu.a ∧ (c2.ps.z = true ↔ c2.a = 0) ∧ c2.ps.n = c2.a.testBit 7) ∧
    (∃ c2, cpu.ldy_absolute_x_indexed = some c2 ∧
      c2.y = cpu.memory.data ((cpu.operand_word + cpu.x) % 65536) ∧
      c2.a = cpu.a ∧ (c2.ps.z = true ↔ c2.a = 0) ∧ c2.ps.n = c2.a.testBit 7) ∧
    (∃ c2, cpu.ldy_x_indexed_zero_page = some c2 ∧
      c2.y = (cpu.memory.data cpu.operand_byte + cpu.x) % 256 ∧
      c2.a = cpu.a ∧ (c2.ps.z = true ↔ c2.a = 0) ∧ c2.ps.n = c2.a.testBit 7) :=
  ⟨⟨_, lda_immediate_eval hpc, rfl, snz_z _, snz_n _⟩,
   ⟨_, lda_absolute_eval hpc hm, rfl, snz_z _, snz_n _⟩,
   ⟨_, lda_absolute_x_indexed_eval hpc, rfl, snz_z _, snz_n _⟩,
   ⟨_, lda_absolute_y_indexed_eval hpc, rfl, snz_z _, snz_n _⟩,
   ⟨_, lda_zp_eval hpc hm, rfl, snz_z _, snz_n _⟩,
   ⟨_, lda_zp_x_eval hpc hm, rfl, snz_z _, snz_n _⟩,
   ⟨_, lda_x_indexed_zero_page_indirect_eval hpc, rfl, snz_z _, snz_n _⟩,
   ⟨_, lda_y_zero_page_indirect_indexed_eval hpc hm, rfl, snz_z _, snz_n _⟩,
   ⟨_, ldx_immediate_eval hpc, rfl, rfl, snz_z _, snz_n _⟩,
   ⟨_, ldx_absolute_eval hpc hm, rfl, rfl, snz_z _, snz_n _⟩,
   ⟨_, ldx_zp_eval hpc hm, rfl, rfl, snz_z _, snz_n _⟩,
   ⟨_, ldx_absolute_y_indexed_eval hpc, rfl, rfl, snz_z _, snz_n _⟩,
   ⟨_, ldx_y_indexed_zero_page_eval hpc hm, rfl, rfl, snz_z _, snz_n _⟩,
   ⟨_, ldy_immediate_eval hpc, rfl, rfl, snz_z _, snz_n _⟩,
   ⟨_, ldy_absolute_eval hpc hm, rfl, rfl, snz_z _, snz_n _⟩,
   ⟨_, ldy_zp_eval hpc hm, rfl, rfl, snz_z _, snz_n _⟩,
   ⟨_, ldy_absolute_x_indexed_eval hpc, rfl, rfl, snz_z _, snz_n _⟩,
   ⟨_, ldy_x_indexed_zero_page_eval hpc hm, rfl, rfl, snz_z _, snz_n _⟩⟩

/-- Claim C1, witness: lda_immediate on a concrete state loads 0 into the
accumulator and the theorem then forces the Zero flag. -/
theorem C1_witness :
    ∃ c2, Cpu.lda_immediate machineC1 = some c2 ∧ c2.a = 0 ∧ c2.ps.z = true := by
  obtain ⟨c2, h1, h2, h3, _⟩ := (C1_loads machineC1 (by decide) (memOf_wf _)).1
  have ha : c2.a = 0 := by rw [h2]; decide
  exact ⟨c2, h1, ha, h3.mpr ha⟩

/-- Claim C2, counterexample: lda_zp_x with operand 66, x = 1, memory 132 at
66 and 7 at the indexed address 67 loads 133 = 132 + 1 into the accumulator,
not the byte 7 stored at the indexed effective address. -/
theorem C2_counterexample :
    (Cpu.lda_zp_x machineC2).map (fun c => c.a) ≠
      some (machineC2.memory.data (machineC2.memory.data machineC2.pc + machineC2.x)) ∧
    (Cpu.lda_zp_x machineC2).map (fun c => c.a) = some 133 := by
  constructor <;> decide

/-- Claim C2 (amended): in the three zero-page indexed load handlers the
fetched operand byte itself is the address that is read; the index register is
added, with 8-bit wrap, to the value read from memory, and that sum is what
lands in the destination register. -/
theorem C2_zero_page_indexed (cpu : Cpu) (hpc : cpu.pc < 65536) (hm : cpu.memory.Wf) :
    (∃ c2, cpu.lda_zp_x = some c2 ∧
      c2.a = (cpu.memory.data cpu.operand_byte + cpu.x) % 256) ∧
    (∃ c2, cpu.ldx_y_indexed_zero_page = some c2 ∧
      c2.x = (cpu.memory.data cpu.operand_byte + cpu.y) % 256) ∧
    (∃ c2, cpu.ldy_x_indexed_zero_page = some c2 ∧
      c2.y = (cpu.memory.data cpu.operand_byte + cpu.x) % 256) :=
  ⟨⟨_, lda_zp_x_eval hpc hm, rfl⟩,
   ⟨_, ldx_y_indexed_zero_page_eval hpc hm, rfl⟩,
   ⟨_, ldy_x_indexed_zero_page_eval hpc hm, rfl⟩⟩

/-- Claim C2, witness: on the concrete counterexample state the amended claim
gives accumulator 133. -/
theorem C2_witness : ∃ c2, Cpu.lda_zp_x machineC2 = some c2 ∧ c2.a = 133 := by
  obtain ⟨c2, h1, h2⟩ := (C2_zero_page_indexed machineC2 (by decide) (memOf_wf _)).1
  exact ⟨c2, h1, by rw [h2]; decide⟩

/-- Claim C3, counterexample: lda_x_indexed_zero_page_indirect with operand
32 and x = 4 reads the byte 32 directly at address 36; it does not read the
pointer word 0x0020 stored at 36 and 37 and dereference it to the byte 153 at
address 32. -/
theorem C3_counterexample :
    (Cpu.lda_x_indexed_zero_page_indirect machineC3).map (fun c => c.a) ≠
      some (machineC3.memory.data
        (machineC3.memory.data 36 ||| machineC3.memory.data 37 <<< 8)) ∧
    (Cpu.lda_x_indexed_zero_page_indirect machineC3).map (fun c => c.a) = some 32 := by
  constructor <;> decide

/-- Claim C3 (amended): the X-indexed zero-page indirect accumulator load
reads the byte directly at operand + X mod 256 with no level of indirection,
unlike the AND instruction in the same addressing mode, which reads a
little-endian pointer word at operand + X mod 256 and dereferences it. -/
theorem C3_lda_zp_xi_no_indirection (cpu : Cpu) (hpc : cpu.pc < 65536) (hm : cpu.memory.Wf) :
    (∃ c2, cpu.lda_x_indexed_zero_page_indirect = some c2 ∧
      c2.a = cpu.memory.data ((cpu.operand_byte + cpu.x) % 256)) ∧
    (∃ c2, cpu.anda_zp_xi = some c2 ∧
      c2.a = cpu.a &&& cpu.memory.data
        (cpu.memory.data ((cpu.operand_byte + cpu.x) % 256) |||
         cpu.memory.data ((cpu.operand_byte + cpu.x) % 256 + 1) <<< 8)) :=
  ⟨⟨_, lda_x_indexed_zero_page_indirect_eval hpc, rfl⟩,
   ⟨_, anda_zp_xi_eval hpc hm, rfl⟩⟩

/-- Claim C3, witness: on the concrete state the direct read loads 32 while
the AND in the same mode dereferences the pointer and combines with 153. -/
theorem C3_witness :
    (∃ c2, Cpu.lda_x_indexed_zero_page_indirect machineC3 = some c2 ∧ c2.a = 32) ∧
    (∃ c2, Cpu.anda_zp_xi machineC3 = some c2 ∧ c2.a = 153) := by
  obtain ⟨⟨c2, h1, h2⟩, ⟨c3, h3, h4⟩⟩ :=
    C3_lda_zp_xi_no_indirection machineC3 (by decide) (memOf_wf _)
  exact ⟨⟨c2, h1, by rw [h2]; decide⟩, ⟨c3, h3, by rw [h4]; decide⟩⟩

/-- Claim C4, code bug: a subroutine call at 0x1234 (decoded, pc = 0x1235 at
the operand word, target 0x8000, sp = 0x0100) pushes the word 0x1236 at
0x0100 and 0x0101, yet the immediate return reads its high byte from the
never-written cell 0x00FF and its low byte from 0x0100, resuming at
pc = 0x0037 instead of 0x1237; only sp comes back to its pre-call value. -/
theorem C4_code_bug :
    ((Cpu.jump_subroutine machineC4).bind Cpu.return_subroutine).map
        (fun c => (c.pc, c.sp)) = some (55, 256) ∧
    (55 : Nat) ≠ 4663 ∧
    (Cpu.jump_subroutine machineC4).map
        (fun c => (c.memory.data 256, c.memory.data 257, c.sp)) = some (54, 18, 254) := by
  refine ⟨by decide, by decide, by decide⟩

/-- Claim C5: whenever the fetched pointer address of an indirect absolute
jump has low byte 0xFF, the low byte of the target is read at the pointer
address and the high byte at the first address of the same page (pointer
address AND 0xFF00), never from the next page. -/
theorem C5_jump_indirect_page_wrap (cpu : Cpu) (hpc : cpu.pc < 65536)
    (hm : cpu.memory.Wf) (hlow : cpu.operand_word % 256 = 255) :
    ∃ c2, cpu.jump_absolute_indirect = some c2 ∧
      c2.pc = cpu.memory.data cpu.operand_word |||
        cpu.memory.data (cpu.operand_word &&& 65280) <<< 8 :=
  ⟨_, jump_absolute_indirect_wrap_eval hpc hm hlow, rfl⟩

/-- Claim C5, witness: the literal example of the spec. The pointer address is
0xAAFF, memory holds 0xBB at 0xAAFF and at 0xAA00 and a different byte 0x77 at
0xAB00; the jump lands at 0xBBBB, untouched by the next-page byte. -/
theorem C5_witness :
    (∃ c2, Cpu.jump_absolute_indirect machineC5 = some c2 ∧ c2.pc = 48059) ∧
    machineC5.memory.data 43776 = 119 := by
  obtain ⟨c2, h1, h2⟩ :=
    C5_jump_indirect_page_wrap machineC5 (by decide) (memOf_wf _) (by decide)
  exact ⟨⟨c2, h1, by rw [h2]; decide⟩, by decide⟩

/-- Claim C6, counterexample: the fetch guard compares pc against
MAX_MEM = 65536 with a strict greater-than; it is false at the largest
reachable 16-bit pc 0xFFFF, and any pc that does make it fire lies beyond
65535, which a 16-bit program counter never reaches — so the guard never
triggers on a reachable pc, refuting the claim that it does. -/
theorem C6_counterexample :
    fetch_guard 65535 = false ∧ ∀ pcv : Nat, fetch_guard pcv = true → 65536 ≤ pcv := by
  constructor
  · decide
  · intro pcv h
    unfold fetch_guard MAX_MEM at h
    simp only [decide_eq_true_eq] at h
    omega

/-- Claim C6 (amended): the guard in fetch_byte is dead code: on every state
whose pc is a 16-bit value the guard is false and the fetch succeeds,
returning the byte at pc and advancing pc; no fetch ever terminates the
engine through this guard. -/
theorem C6_fetch_guard_dead (cpu : Cpu) (h : cpu.pc < 65536) :
    fetch_guard cpu.pc = false ∧
    cpu.fetch_byte = some (cpu.memory.data cpu.pc, { cpu with pc := (cpu.pc + 1) % 65536 }) := by
  refine ⟨?_, fetch_byte_lt h⟩
  unfold fetch_guard MAX_MEM
  simp only [decide_eq_false_iff_not]
  omega

/-- Claim C6, witness: even at the largest 16-bit pc, 0xFFFF, the guard is
false and the fetch returns the byte stored there. -/
theorem C6_witness :
    fetch_guard machineC6.pc = false ∧
    (Cpu.fetch_byte machineC6).map (fun r => r.1) = some 42 := by
  obtain ⟨h1, h2⟩ := C6_fetch_guard_dead machineC6 (by decide)
  exact ⟨h1, by rw [h2]; decide⟩

/-- Claim C7, counterexample: lsr_abs_x with base 0xFFFF and x = 1 computes
the effective address 0x10000 in usize, indexes out of bounds and panics
instead of wrapping to 0; a word read at 0xFFFF likewise panics on
address + 1 = 0x10000. Address computation can be fatal. -/
theorem C7_counterexample :
    Cpu.lsr_abs_x machineC7 = none ∧ Memory.read_word (memOf []) 65535 = none := by
  constructor
  · exact lsr_abs_x_fault (by decide) (by decide)
  · exact read_word_top_fault _

/-- Claim C7 (amended): the absolute indexed loads and the absolute indexed
AND and OR handlers compute base + index in u16, wrapping modulo 65536, and
never fault; but the shift absolute X-indexed handler computes base + x in
usize, so when the sum reaches 65536 it faults instead of wrapping, and word
reads and writes at address 0xFFFF fault on address + 1 = 0x10000. -/
theorem C7_address_wrap (cpu : Cpu) (hpc : cpu.pc < 65536) (_hm : cpu.memory.Wf) :
    (∃ c2, cpu.lda_absolute_x_indexed = some c2 ∧
      c2.a = cpu.memory.data ((cpu.operand_word + cpu.x) % 65536)) ∧
    (∃ c2, cpu.lda_absolute_y_indexed = some c2 ∧
      c2.a = cpu.memory.data ((cpu.operand_word + cpu.y) % 65536)) ∧
    (∃ c2, cpu.ldx_absolute_y_indexed = some c2 ∧
      c2.x = cpu.memory.data ((cpu.operand_word + cpu.y) % 65536)) ∧
    (∃ c2, cpu.ldy_absolute_x_indexed = some c2 ∧
      c2.y = cpu.memory.data ((cpu.operand_word + cpu.x) % 65536)) ∧
    (∃ c2, cpu.anda_abs_x = some c2 ∧
      c2.a = cpu.a &&& cpu.memory.data ((cpu.operand_word + cpu.x) % 65536)) ∧
    (∃ c2, cpu.anda_abs_y = some c2 ∧
      c2.a = cpu.a &&& cpu.memory.data ((cpu.operand_word + cpu.y) % 65536)) ∧
    (∃ c2, cpu.ora_abs_x = some c2 ∧
      c2.a = cpu.a ||| cpu.memory.data ((cpu.operand_word + cpu.x) % 65536)) ∧
    (∃ c2, cpu.ora_abs_y = some c2 ∧
      c2.a = cpu.a ||| cpu.memory.data ((cpu.operand_word + cpu.y) % 65536)) ∧
    (65536 ≤ cpu.operand_word + cpu.x → cpu.lsr_abs_x = none) ∧
    (∀ m : Memory, m.read_word 65535 = none) ∧
    (∀ (m : Memory) (v : Nat), m.write_word 65535 v = none) :=
  ⟨⟨_, lda_absolute_x_indexed_eval hpc, rfl⟩,
   ⟨_, lda_absolute_y_indexed_eval hpc, rfl⟩,
   ⟨_, ldx_absolute_y_indexed_eval hpc, rfl⟩,
   ⟨_, ldy_absolute_x_indexed_eval hpc, rfl⟩,
   ⟨_, anda_abs_x_eval hpc, rfl⟩,
   ⟨_, anda_abs_y_eval hpc, rfl⟩,
   ⟨_, ora_abs_x_eval hpc, rfl⟩,
   ⟨_, ora_abs_y_eval hpc, rfl⟩,
   fun hbig => lsr_abs_x_fault hpc hbig,
   read_word_top_fault,
   write_word_top_fault⟩

/-- Claim C7, witness: with base 0xFFFF and x = 3 the accumulator load wraps
to address 2 and reads 99; with base 0xFFFF and x = 1 the shift faults. -/
theorem C7_witness :
    (∃ c2, Cpu.lda_absolute_x_indexed machineC7w = some c2 ∧ c2.a = 99) ∧
    Cpu.lsr_abs_x machineC7 = none := by
  obtain ⟨c2, h1, h2⟩ := (C7_address_wrap machineC7w (by decide) (memOf_wf _)).1
  have hf := (C7_address_wrap machineC7 (by decide) (memOf_wf _)).2.2.2.2.2.2.2.2.1
  exact ⟨⟨c2, h1, by rw [h2]; decide⟩, hf (by decide)⟩

/-- Claim C8: php stores the raw packed status byte at sp; plp rebuilds every
defined flag from exactly its bit of the byte read, and php then plp restores
the identical flag pattern with sp back at its pre-push value; pha then pla
restores the accumulator with sp unchanged net of the two operations. -/
theorem C8_stack_roundtrip (cpu : Cpu) (hsp : cpu.sp < 65536) :
    (∃ c2, cpu.php = some c2 ∧ c2.memory.data cpu.sp = cpu.ps.bits ∧
      ∃ c3, Cpu.plp c2 = some c3 ∧ c3.ps = cpu.ps ∧ c3.sp = cpu.sp) ∧
    (∃ c2, cpu.pha = some c2 ∧ c2.memory.data cpu.sp = cpu.a ∧
      ∃ c3, Cpu.pla c2 = some c3 ∧ c3.a = cpu.a ∧ c3.sp = cpu.sp) ∧
    (∀ bits : Nat,
      (ProcessorStatus.from_bits_truncate bits).n = bits.testBit 7 ∧
      (ProcessorStatus.from_bits_truncate bits).v = bits.testBit 6 ∧
      (ProcessorStatus.from_bits_truncate bits).b = bits.testBit 4 ∧
      (ProcessorStatus.from_bits_truncate bits).d = bits.testBit 3 ∧
      (ProcessorStatus.from_bits_truncate bits).i = bits.testBit 2 ∧
      (ProcessorStatus.from_bits_truncate bits).z = bits.testBit 1 ∧
      (ProcessorStatus.from_bits_truncate bits).c = bits.testBit 0) ∧
    (∀ ps : ProcessorStatus, ProcessorStatus.from_bits_truncate ps.bits = ps) := by
  have heq : ((cpu.sp + 65535) % 65536 + 1) % 65536 = cpu.sp := by omega
  refine ⟨?_, ?_, fun bits => ⟨rfl, rfl, rfl, rfl, rfl, rfl, rfl⟩, from_bits_truncate_bits⟩
  · refine ⟨_, php_eval hsp, by simp, ?_⟩
    refine ⟨_, plp_eval _, ?_, ?_⟩
    · simp only [heq]
      simp [from_bits_truncate_bits]
    · simp only [heq]
  · refine ⟨_, pha_eval hsp, by simp, ?_⟩
    refine ⟨_, pla_eval _, ?_, ?_⟩
    · simp only [Cpu.set_negative_and_zero_flags, heq]
      simp
    · simp only [Cpu.set_negative_and_zero_flags, heq]

/-- Claim C8, witness: on a concrete state with flags N, B, I, Z set (packed
byte 150 = 0x96), a = 77 and sp = 336, push then pop restores the status and
the accumulator with sp back at 336. -/
theorem C8_witness :
    machineC8.sp = 336 ∧ machineC8.ps.bits = 150 ∧ machineC8.a = 77 ∧
    (∃ c2, Cpu.php machineC8 = some c2 ∧ c2.memory.data machineC8.sp = machineC8.ps.bits ∧
      ∃ c3, Cpu.plp c2 = some c3 ∧ c3.ps = machineC8.ps ∧ c3.sp = machineC8.sp) ∧
    (∃ c2, Cpu.pha machineC8 = some c2 ∧ c2.memory.data machineC8.sp = machineC8.a ∧
      ∃ c3, Cpu.pla c2 = some c3 ∧ c3.a = machineC8.a ∧ c3.sp = machineC8.sp) := by
  obtain ⟨hA, hB, _, _⟩ := C8_stack_roundtrip machineC8 (by decide)
  exact ⟨by decide, by decide, by decide, hA, hB⟩

/-- Claim C9, counterexample: lsr_zp_x on a state with a = 0x80 shifts the
memory byte 2 at address 16 to 1, yet the Negative flag comes out set, because
the handler recomputes Z and N from the accumulator instead of clearing N. -/
theorem C9_counterexample :
    (Cpu.lsr_zp_x machineC9).map (fun c => c.ps.n) = some true ∧
    (Cpu.lsr_zp_x machineC9).map (fun c => c.memory.data 16) = some 1 := by
  constructor <;> decide

/-- Claim C9 (amended): in accumulator, absolute, zero-page and absolute
X-indexed modes the shift-right puts bit 0 of the operand into Carry, clears
Negative and sets Zero iff the shifted result is zero, as claimed; but the
zero-page X-indexed mode, while writing back the shifted byte and setting
Carry from bit 0 of the operand, recomputes Zero and Negative from the
unchanged accumulator: Z iff a = 0 and N iff bit 7 of a. -/
theorem C9_lsr (cpu : Cpu) (hpc : cpu.pc < 65536) (hm : cpu.memory.Wf)
    (ha : cpu.a < 256) (hx : cpu.x < 256) :
    ((cpu.lsr_acc).a = cpu.a >>> 1 ∧ (cpu.lsr_acc).ps.c = cpu.a.testBit 0 ∧
      (cpu.lsr_acc).ps.n = false ∧ ((cpu.lsr_acc).ps.z = true ↔ cpu.a >>> 1 = 0)) ∧
    (∃ c2, cpu.lsr_abs = some c2 ∧
      c2.memory.data cpu.operand_word = cpu.memory.data cpu.operand_word >>> 1 ∧
      c2.ps.c = (cpu.memory.data cpu.operand_word).testBit 0 ∧ c2.ps.n = false ∧
      (c2.ps.z = true ↔ cpu.memory.data cpu.operand_word >>> 1 = 0)) ∧
    (∃ c2, cpu.lsr_zp = some c2 ∧
      c2.memory.data cpu.operand_byte =
        cpu.memory.data cpu.operand_byte >>> 1 ∧
      c2.ps.c = (cpu.memory.data cpu.operand_byte).testBit 0 ∧ c2.ps.n = false ∧
      (c2.ps.z = true ↔ cpu.memory.data cpu.operand_byte >>> 1 = 0)) ∧
    (cpu.operand_word + cpu.x < 65536 → ∃ c2, cpu.lsr_abs_x = some c2 ∧
      c2.memory.data (cpu.operand_word + cpu.x) =
        cpu.memory.data (cpu.operand_word + cpu.x) >>> 1 ∧
      c2.ps.c = (cpu.memory.data (cpu.operand_word + cpu.x)).testBit 0 ∧ c2.ps.n = false ∧
      (c2.ps.z = true ↔ cpu.memory.data (cpu.operand_word + cpu.x) >>> 1 = 0)) ∧
    (∃ c2, cpu.lsr_zp_x = some c2 ∧
      c2.memory.data (cpu.operand_byte + cpu.x) =
        cpu.memory.data (cpu.operand_byte + cpu.x) >>> 1 ∧
      c2.ps.c = (cpu.memory.data (cpu.operand_byte + cpu.x)).testBit 0 ∧
      c2.a = cpu.a ∧ (c2.ps.z = true ↔ cpu.a = 0) ∧ c2.ps.n = cpu.a.testBit 7) := by
  refine ⟨⟨rfl, ?_, ?_, ?_⟩, ?_, ?_, ?_, ?_⟩
  · exact decide_and1 _
  · have hn : (cpu.lsr_acc).ps.n = decide (0 < (cpu.a >>> 1) &&& 128) := rfl
    rw [hn, decide_and128, testBit7_shiftRight ha]
  · have hz : (cpu.lsr_acc).ps.z = (cpu.a >>> 1 == 0) := rfl
    simp [hz]
  · refine ⟨_, lsr_abs_eval hpc hm, by simp [Cpu.set_carry_flag], decide_and1 _, rfl,
      by simp [Cpu.set_carry_flag]⟩
  · refine ⟨_, lsr_zp_eval hpc hm, by simp [Cpu.set_carry_flag, Cpu.operand_byte],
      decide_and1 _, rfl, by simp [Cpu.set_carry_flag, Cpu.operand_byte]⟩
  · intro hlt
    refine ⟨_, lsr_abs_x_eval hpc hlt, by simp [Cpu.set_carry_flag], decide_and1 _, rfl,
      by simp [Cpu.set_carry_flag]⟩
  · refine ⟨_, lsr_zp_x_eval hpc hm hx,
      by simp [Cpu.set_carry_flag, Cpu.set_negative_and_zero_flags, Cpu.operand_byte],
      decide_and1 _, rfl, snz_z _, snz_n _⟩

/-- Claim C9, witness: a = 0x83 shifts to 0x41 with carry out set and N
clear; the memory byte 3 at address 16 shifts to 1 in zero-page mode. -/
theorem C9_witness :
    ((Cpu.lsr_acc machineC9w).a = 65 ∧ (Cpu.lsr_acc machineC9w).ps.c = true ∧
      (Cpu.lsr_acc machineC9w).ps.n = false) ∧
    (∃ c2, Cpu.lsr_zp machineC9w = some c2 ∧ c2.memory.data 16 = 1 ∧
      c2.ps.c = true ∧ c2.ps.n = false) := by
  obtain ⟨⟨h1, h2, h3, _⟩, _, ⟨c2, g1, g2, g3, g4, _⟩, _, _⟩ :=
    C9_lsr machineC9w (by decide) (memOf_wf _) (by decide) (by decide)
  refine ⟨⟨by rw [h1]; decide, by rw [h2]; decide, h3⟩, ⟨c2, g1, ?_, by rw [g3]; decide, g4⟩⟩
  have hob : machineC9w.operand_byte = 16 := by decide
  rw [hob] at g2
  rw [g2]
  decide

set_option maxRecDepth 4096 in
/-- Claim C10: the transfer of x to the stack pointer sets sp to
0x0100 OR x, which always lies inside the stack page 0x0100 to 0x01FF, and
changes no other register, no memory cell and no status flag. -/
theorem C10_txs (cpu : Cpu) (hx : cpu.x < 256) :
    (cpu.transfer_x_to_sp).sp = 256 ||| cpu.x ∧
    256 ≤ (cpu.transfer_x_to_sp).sp ∧ (cpu.transfer_x_to_sp).sp ≤ 511 ∧
    (cpu.transfer_x_to_sp).pc = cpu.pc ∧ (cpu.transfer_x_to_sp).a = cpu.a ∧
    (cpu.transfer_x_to_sp).x = cpu.x ∧ (cpu.transfer_x_to_sp).y = cpu.y ∧
    (cpu.transfer_x_to_sp).ps = cpu.ps ∧ (cpu.transfer_x_to_sp).memory = cpu.memory := by
  have hb : ∀ xv : Nat, xv < 256 → 256 ≤ 256 ||| xv ∧ 256 ||| xv ≤ 511 := by decide
  exact ⟨rfl, (hb cpu.x hx).1, (hb cpu.x hx).2, rfl, rfl, rfl, rfl, rfl, rfl⟩

/-- Claim C10, witness: x = 0xAA sends sp from 40000 to 0x01AA = 426 with all
other state intact. -/
theorem C10_witness :
    (Cpu.transfer_x_to_sp machineC10).sp = 426 ∧
    (Cpu.transfer_x_to_sp machineC10).a = machineC10.a ∧
    (Cpu.transfer_x_to_sp machineC10).ps = machineC10.ps := by
  obtain ⟨h1, _, _, _, h5, _, _, h8, _⟩ := C10_txs machineC10 (by decide)
  exact ⟨by rw [h1]; decide, h5, h8⟩
